import Mathlib

/-!
# GBox tessellator geometry predicates

A shallow embedding of the predicates of
`src/gbox/utils/impl/tessellator/geometry.h`.

The coordinate type `gb_float_t` is declared outside the header; it is taken
as a parameter `α`.  The order predicates only compare coordinates, so they
are stated over a linear order; the distance and position evaluators also
divide, so they are stated over a linearly ordered field.

A floating-point `gb_float_t` also has not-a-number, which no linear order
has.  The macros are therefore transcribed a second time, in the namespace
`Fp`, over coordinates `Coord α` that are a number or not-a-number; the
properties that depend on it are stated there.
-/

namespace GBox

/-! ## Data model -/

/-- The position of a vertex, `gb_point_t`: the two coordinates read by the
macros as `->x` and `->y`. -/
structure Point (α : Type) where
  x : α
  y : α
deriving DecidableEq, Repr

/-- A mesh vertex.  `id` is the identity of the vertex in the mesh (two
different vertices may carry the same position); `point` is the user data
read by `gb_tessellator_vertex_point`. -/
structure Vertex (α : Type) where
  id : Nat
  point : Point α
deriving DecidableEq, Repr

/-- A directed mesh edge, seen through the two accessors the header uses:
its origin and its destination vertex. -/
structure Edge (α : Type) where
  org : Vertex α
  dst : Vertex α
deriving DecidableEq, Repr

variable {α : Type}

/-- The accessor `gb_tessellator_vertex_point(vertex)`. -/
def gb_tessellator_vertex_point (v : Vertex α) : Point α := v.point

/-- The accessor `gb_mesh_edge_org(edge)`. -/
def gb_mesh_edge_org (e : Edge α) : Vertex α := e.org

/-- The accessor `gb_mesh_edge_dst(edge)`. -/
def gb_mesh_edge_dst (e : Edge α) : Vertex α := e.dst

/-! ## The macros of geometry.h -/

/-- The macro `gb_tessellator_vertex_eq(a, b)`: vertex `a == b`? -/
def gb_tessellator_vertex_eq [DecidableEq α] (a b : Vertex α) : Bool :=
  decide ((gb_tessellator_vertex_point a).x = (gb_tessellator_vertex_point b).x)
    && decide ((gb_tessellator_vertex_point a).y = (gb_tessellator_vertex_point b).y)

/-- The macro `gb_tessellator_vertex_le_h(a, b)`: vertex `a <= b` for the
horizontal sweep direction. -/
def gb_tessellator_vertex_le_h [LinearOrder α] (a b : Vertex α) : Bool :=
  decide ((gb_tessellator_vertex_point a).y < (gb_tessellator_vertex_point b).y)
    || (decide ((gb_tessellator_vertex_point a).y = (gb_tessellator_vertex_point b).y)
        && decide ((gb_tessellator_vertex_point a).x ≤ (gb_tessellator_vertex_point b).x))

/-- The macro `gb_tessellator_vertex_le_v(a, b)`: vertex `a <= b` for the
vertical sweep direction. -/
def gb_tessellator_vertex_le_v [LinearOrder α] (a b : Vertex α) : Bool :=
  decide ((gb_tessellator_vertex_point a).x < (gb_tessellator_vertex_point b).x)
    || (decide ((gb_tessellator_vertex_point a).x = (gb_tessellator_vertex_point b).x)
        && decide ((gb_tessellator_vertex_point a).y ≤ (gb_tessellator_vertex_point b).y))

/-- The macro `gb_tessellator_edge_go_left(edge)`. -/
def gb_tessellator_edge_go_left [LinearOrder α] (edge : Edge α) : Bool :=
  gb_tessellator_vertex_le_v (gb_mesh_edge_dst edge) (gb_mesh_edge_org edge)

/-- The macro `gb_tessellator_edge_go_right(edge)`. -/
def gb_tessellator_edge_go_right [LinearOrder α] (edge : Edge α) : Bool :=
  gb_tessellator_vertex_le_v (gb_mesh_edge_org edge) (gb_mesh_edge_dst edge)

/-- The macro `gb_tessellator_edge_go_up(edge)`. -/
def gb_tessellator_edge_go_up [LinearOrder α] (edge : Edge α) : Bool :=
  gb_tessellator_vertex_le_h (gb_mesh_edge_dst edge) (gb_mesh_edge_org edge)

/-- The macro `gb_tessellator_edge_go_down(edge)`. -/
def gb_tessellator_edge_go_down [LinearOrder α] (edge : Edge α) : Bool :=
  gb_tessellator_vertex_le_h (gb_mesh_edge_org edge) (gb_mesh_edge_dst edge)

/-- Shorthand for building a vertex from an identity and two coordinates. -/
def mkVertex (id : Nat) (x y : α) : Vertex α := ⟨id, ⟨x, y⟩⟩

/-! ## The macros on floating-point coordinates

When `gb_float_t` is a floating-point type a coordinate may be not-a-number,
and then every C comparison with it is false.  The macros are transcribed a
second time over such coordinates, operator for operator; on numbers they are
the macros above. -/

/-- A floating-point coordinate as the C comparisons see it: not-a-number, or
a number of a linearly ordered type.  The infinities are numbers, and the two
signed zeros, which compare equal, are one number. -/
inductive Coord (α : Type) where
  | nan
  | num (v : α)
deriving DecidableEq, Repr

/-- The C operator `<` on two floating-point coordinates. -/
def Coord.c_lt [LinearOrder α] : Coord α → Coord α → Bool
  | Coord.num a, Coord.num b => decide (a < b)
  | _, _ => false

/-- The C operator `<=` on two floating-point coordinates. -/
def Coord.c_le [LinearOrder α] : Coord α → Coord α → Bool
  | Coord.num a, Coord.num b => decide (a ≤ b)
  | _, _ => false

/-- The C operator `==` on two floating-point coordinates. -/
def Coord.c_eq [DecidableEq α] : Coord α → Coord α → Bool
  | Coord.num a, Coord.num b => decide (a = b)
  | _, _ => false

/-- The coordinate is a number, not not-a-number. -/
def Coord.is_num : Coord α → Bool
  | Coord.num _ => true
  | Coord.nan => false

namespace Fp

/-- Both coordinates of the vertex are numbers. -/
def vertex_is_num (v : Vertex (Coord α)) : Bool :=
  (gb_tessellator_vertex_point v).x.is_num && (gb_tessellator_vertex_point v).y.is_num

/-- The vertex with the same identity and the same two numbers as floating-point
coordinates. -/
def of_numbers (v : Vertex α) : Vertex (Coord α) :=
  ⟨v.id, ⟨Coord.num v.point.x, Coord.num v.point.y⟩⟩

/-- The macro `gb_tessellator_vertex_eq(a, b)` on floating-point coordinates. -/
def gb_tessellator_vertex_eq [DecidableEq α] (a b : Vertex (Coord α)) : Bool :=
  Coord.c_eq (gb_tessellator_vertex_point a).x (gb_tessellator_vertex_point b).x
    && Coord.c_eq (gb_tessellator_vertex_point a).y (gb_tessellator_vertex_point b).y

/-- The macro `gb_tessellator_vertex_le_h(a, b)` on floating-point
coordinates. -/
def gb_tessellator_vertex_le_h [LinearOrder α] (a b : Vertex (Coord α)) : Bool :=
  Coord.c_lt (gb_tessellator_vertex_point a).y (gb_tessellator_vertex_point b).y
    || (Coord.c_eq (gb_tessellator_vertex_point a).y (gb_tessellator_vertex_point b).y
        && Coord.c_le (gb_tessellator_vertex_point a).x (gb_tessellator_vertex_point b).x)

/-- The macro `gb_tessellator_vertex_le_v(a, b)` on floating-point
coordinates. -/
def gb_tessellator_vertex_le_v [LinearOrder α] (a b : Vertex (Coord α)) : Bool :=
  Coord.c_lt (gb_tessellator_vertex_point a).x (gb_tessellator_vertex_point b).x
    || (Coord.c_eq (gb_tessellator_vertex_point a).x (gb_tessellator_vertex_point b).x
        && Coord.c_le (gb_tessellator_vertex_point a).y (gb_tessellator_vertex_point b).y)

/-- The macro `gb_tessellator_edge_go_left(edge)` on floating-point
coordinates. -/
def gb_tessellator_edge_go_left [LinearOrder α] (edge : Edge (Coord α)) : Bool :=
  Fp.gb_tessellator_vertex_le_v (gb_mesh_edge_dst edge) (gb_mesh_edge_org edge)

/-- The macro `gb_tessellator_edge_go_right(edge)` on floating-point
coordinates. -/
def gb_tessellator_edge_go_right [LinearOrder α] (edge : Edge (Coord α)) : Bool :=
  Fp.gb_tessellator_vertex_le_v (gb_mesh_edge_org edge) (gb_mesh_edge_dst edge)

/-- The macro `gb_tessellator_edge_go_up(edge)` on floating-point
coordinates. -/
def gb_tessellator_edge_go_up [LinearOrder α] (edge : Edge (Coord α)) : Bool :=
  Fp.gb_tessellator_vertex_le_h (gb_mesh_edge_dst edge) (gb_mesh_edge_org edge)

/-- The macro `gb_tessellator_edge_go_down(edge)` on floating-point
coordinates. -/
def gb_tessellator_edge_go_down [LinearOrder α] (edge : Edge (Coord α)) : Bool :=
  Fp.gb_tessellator_vertex_le_h (gb_mesh_edge_org edge) (gb_mesh_edge_dst edge)

end Fp

/-! ## The evaluators declared in geometry.h

The header only declares the four evaluators and does not hold their bodies.
They are modelled from what the header comments and the specification say
they compute. -/

/-- The sign of a number as a small signed integer: `1`, `0` or `-1`. -/
def sign_of [LinearOrderedField α] (v : α) : Int :=
  if 0 < v then 1 else if v < 0 then -1 else 0

/-- Three positions lie on one line: the cross product of `q - p` and
`r - p` vanishes. -/
def collinear [LinearOrderedField α] (p q r : Point α) : Bool :=
  decide ((q.x - p.x) * (r.y - p.y) = (r.x - p.x) * (q.y - p.y))

/-- Modelled from the spec: the body of `gb_tessellator_distance_h` is missing
(the header only declares it).  It is the signed offset of `center` from the
line through `upper` and `lower` along the x axis,
`distance = (center - edge(upper, lower)).x`, the edge being evaluated at the
height of `center` (meaningful when `upper.y` and `lower.y` differ). -/
def gb_tessellator_distance_h [LinearOrderedField α] (center upper lower : Vertex α) : α :=
  let pc := gb_tessellator_vertex_point center
  let pu := gb_tessellator_vertex_point upper
  let pl := gb_tessellator_vertex_point lower
  pc.x - (pu.x + (pl.x - pu.x) * ((pc.y - pu.y) / (pl.y - pu.y)))

/-- Modelled from the spec: the body of `gb_tessellator_distance_v` is missing
(the header only declares it).  It is the signed offset of `center` from the
line through `left` and `right` along the y axis,
`distance = (center - edge(left, right)).y`, the edge being evaluated at the
abscissa of `center` (meaningful when `left.x` and `right.x` differ). -/
def gb_tessellator_distance_v [LinearOrderedField α] (center left right : Vertex α) : α :=
  let pc := gb_tessellator_vertex_point center
  let pl := gb_tessellator_vertex_point left
  let pr := gb_tessellator_vertex_point right
  pc.y - (pl.y + (pr.y - pl.y) * ((pc.x - pl.x) / (pr.x - pl.x)))

/-- Modelled from the spec: the body of `gb_tessellator_position_h` is missing
(the header only declares it).  It only evaluates the sign of the horizontal
distance, as a small signed integer, without the exact distance computation:
the sign is read off the division-free weighted sum of the two x offsets. -/
def gb_tessellator_position_h [LinearOrderedField α] (center upper lower : Vertex α) : Int :=
  let pc := gb_tessellator_vertex_point center
  let pu := gb_tessellator_vertex_point upper
  let pl := gb_tessellator_vertex_point lower
  sign_of ((pc.x - pu.x) * (pl.y - pc.y) + (pc.x - pl.x) * (pc.y - pu.y))

/-- Modelled from the spec: the body of `gb_tessellator_position_v` is missing
(the header only declares it).  It only evaluates the sign of the vertical
distance, as a small signed integer, without the exact distance computation:
the sign is read off the division-free weighted sum of the two y offsets. -/
def gb_tessellator_position_v [LinearOrderedField α] (center left right : Vertex α) : Int :=
  let pc := gb_tessellator_vertex_point center
  let pl := gb_tessellator_vertex_point left
  let pr := gb_tessellator_vertex_point right
  sign_of ((pc.y - pl.y) * (pr.x - pc.x) + (pc.y - pr.y) * (pc.x - pl.x))

/-! ## The demo entry point (demo/core/platform/linux/demo.c) -/

/-- The macro `GB_DEMO_WIDTH`. -/
def GB_DEMO_WIDTH : Nat := 640

/-- The macro `GB_DEMO_HEIGHT`. -/
def GB_DEMO_HEIGHT : Nat := 480

/-- A library call made by the demo, in the order `main` makes them. -/
inductive Call where
  | tb_init
  | gb_init
  | gb_window_init_glut (width height : Nat)
  | gb_window_loop (window : Nat)
  | gb_window_exit (window : Nat)
  | gb_exit
  | tb_exit
deriving DecidableEq, Repr

/-- What the three initialisers answer when `main` calls them: `tb_init` and
`gb_init` answer a boolean, `gb_window_init_glut` a window reference, which
is null (`none`) on failure. -/
structure Outcome where
  tb_init : Bool
  gb_init : Bool
  gb_window_init_glut : Option Nat
deriving DecidableEq, Repr

/-- The function `main` of the demo: the sequence of library calls it makes
and its return value.  Every call is taken to return. -/
def main (o : Outcome) : List Call × Int :=
  if !o.tb_init then ([Call.tb_init], 0)
  else if !o.gb_init then ([Call.tb_init, Call.gb_init], 0)
  else
    let calls := [Call.tb_init, Call.gb_init,
      Call.gb_window_init_glut GB_DEMO_WIDTH GB_DEMO_HEIGHT]
    let calls :=
      match o.gb_window_init_glut with
      | some window => calls ++ [Call.gb_window_loop window, Call.gb_window_exit window]
      | none => calls
    (calls ++ [Call.gb_exit, Call.tb_exit], 0)

/-! ## Unfolding lemmas -/

section Order

variable [LinearOrder α]

theorem vertex_eq_iff (a b : Vertex α) :
    gb_tessellator_vertex_eq a b = true ↔ a.point.x = b.point.x ∧ a.point.y = b.point.y := by
  simp [gb_tessellator_vertex_eq, gb_tessellator_vertex_point]

theorem vertex_le_h_iff (a b : Vertex α) :
    gb_tessellator_vertex_le_h a b = true ↔
      a.point.y < b.point.y ∨ (a.point.y = b.point.y ∧ a.point.x ≤ b.point.x) := by
  simp [gb_tessellator_vertex_le_h, gb_tessellator_vertex_point]

theorem vertex_le_v_iff (a b : Vertex α) :
    gb_tessellator_vertex_le_v a b = true ↔
      a.point.x < b.point.x ∨ (a.point.x = b.point.x ∧ a.point.y ≤ b.point.y) := by
  simp [gb_tessellator_vertex_le_v, gb_tessellator_vertex_point]

/-- Transitivity of a lexicographic comparison on two keys. -/
theorem lex_le_trans {p1 p2 q1 q2 r1 r2 : α}
    (h1 : p1 < q1 ∨ (p1 = q1 ∧ p2 ≤ q2)) (h2 : q1 < r1 ∨ (q1 = r1 ∧ q2 ≤ r2)) :
    p1 < r1 ∨ (p1 = r1 ∧ p2 ≤ r2) := by
  rcases h1 with h1 | ⟨e1, l1⟩
  · rcases h2 with h2 | ⟨e2, _⟩
    · exact Or.inl (lt_trans h1 h2)
    · exact Or.inl (e2 ▸ h1)
  · rcases h2 with h2 | ⟨e2, l2⟩
    · exact Or.inl (e1 ▸ h2)
    · exact Or.inr ⟨e1.trans e2, le_trans l1 l2⟩

/-- A lexicographic comparison holds both ways exactly on equal keys. -/
theorem lex_le_antisymm_iff {p1 p2 q1 q2 : α} :
    ((p1 < q1 ∨ (p1 = q1 ∧ p2 ≤ q2)) ∧ (q1 < p1 ∨ (q1 = p1 ∧ q2 ≤ p2))) ↔
      (p1 = q1 ∧ p2 = q2) := by
  constructor
  · rintro ⟨h1 | ⟨e1, l1⟩, h2 | ⟨e2, l2⟩⟩
    · exact absurd (lt_trans h1 h2) (lt_irrefl _)
    · exact absurd (e2 ▸ h1) (lt_irrefl _)
    · exact absurd (e1 ▸ h2) (lt_irrefl _)
    · exact ⟨e1, le_antisymm l1 l2⟩
  · rintro ⟨e1, e2⟩
    exact ⟨Or.inr ⟨e1, e2.le⟩, Or.inr ⟨e1.symm, e2.ge⟩⟩

/-- A lexicographic comparison always holds in one direction at least. -/
theorem lex_le_total (p1 p2 q1 q2 : α) :
    (p1 < q1 ∨ (p1 = q1 ∧ p2 ≤ q2)) ∨ (q1 < p1 ∨ (q1 = p1 ∧ q2 ≤ p2)) := by
  rcases lt_trichotomy p1 q1 with h | h | h
  · exact Or.inl (Or.inl h)
  · rcases le_total p2 q2 with l | l
    · exact Or.inl (Or.inr ⟨h, l⟩)
    · exact Or.inr (Or.inr ⟨h.symm, l⟩)
  · exact Or.inr (Or.inl h)

/-- One of the two directions of the horizontal order always holds. -/
theorem le_h_or_ge_h (a b : Vertex α) :
    gb_tessellator_vertex_le_h a b = true ∨ gb_tessellator_vertex_le_h b a = true := by
  rw [vertex_le_h_iff, vertex_le_h_iff]
  exact lex_le_total _ _ _ _

/-- One of the two directions of the vertical order always holds. -/
theorem le_v_or_ge_v (a b : Vertex α) :
    gb_tessellator_vertex_le_v a b = true ∨ gb_tessellator_vertex_le_v b a = true := by
  rw [vertex_le_v_iff, vertex_le_v_iff]
  exact lex_le_total _ _ _ _

/-- Both directions of the horizontal order hold exactly at equal positions. -/
theorem le_h_both_iff_eq (a b : Vertex α) :
    (gb_tessellator_vertex_le_h a b = true ∧ gb_tessellator_vertex_le_h b a = true) ↔
      gb_tessellator_vertex_eq a b = true := by
  rw [vertex_le_h_iff, vertex_le_h_iff, vertex_eq_iff, lex_le_antisymm_iff]
  exact and_comm

/-- Both directions of the vertical order hold exactly at equal positions. -/
theorem le_v_both_iff_eq (a b : Vertex α) :
    (gb_tessellator_vertex_le_v a b = true ∧ gb_tessellator_vertex_le_v b a = true) ↔
      gb_tessellator_vertex_eq a b = true := by
  rw [vertex_le_v_iff, vertex_le_v_iff, vertex_eq_iff]
  exact lex_le_antisymm_iff

/-- Of two booleans of which one at least is true and not both are, the
first is true exactly when the second is false. -/
theorem bool_exactly_one {p q : Bool} (hor : p = true ∨ q = true)
    (hnot : ¬ (p = true ∧ q = true)) : p = true ↔ q = false := by
  cases p <;> cases q <;> simp_all

end Order

section Field

variable [LinearOrderedField α]

/-- Dividing by a positive number keeps the sign. -/
theorem sign_of_div_pos (n : α) {d : α} (hd : 0 < d) : sign_of (n / d) = sign_of n := by
  have h1 : 0 < n / d ↔ 0 < n := div_pos_iff_of_pos_right hd
  have h2 : n / d < 0 ↔ n < 0 := by
    rw [div_neg_iff]
    constructor
    · rintro (⟨_, h⟩ | ⟨h, _⟩)
      · exact absurd hd (lt_asymm h)
      · exact h
    · intro h
      exact Or.inr ⟨h, hd⟩
  unfold sign_of
  simp only [h1, h2]

/-- The horizontal distance as one quotient over the height of the edge. -/
theorem distance_h_eq_div (center upper lower : Vertex α)
    (hy : upper.point.y ≠ lower.point.y) :
    gb_tessellator_distance_h center upper lower =
      ((center.point.x - upper.point.x) * (lower.point.y - center.point.y)
        + (center.point.x - lower.point.x) * (center.point.y - upper.point.y))
        / (lower.point.y - upper.point.y) := by
  have hd : lower.point.y - upper.point.y ≠ 0 := sub_ne_zero.mpr (Ne.symm hy)
  simp only [gb_tessellator_distance_h, gb_tessellator_vertex_point]
  field_simp
  ring

/-- The vertical distance as one quotient over the width of the edge. -/
theorem distance_v_eq_div (center left right : Vertex α)
    (hx : left.point.x ≠ right.point.x) :
    gb_tessellator_distance_v center left right =
      ((center.point.y - left.point.y) * (right.point.x - center.point.x)
        + (center.point.y - right.point.y) * (center.point.x - left.point.x))
        / (right.point.x - left.point.x) := by
  have hd : right.point.x - left.point.x ≠ 0 := sub_ne_zero.mpr (Ne.symm hx)
  simp only [gb_tessellator_distance_v, gb_tessellator_vertex_point]
  field_simp
  ring

/-- On a non-horizontal line through `p` and `q`, the point at height `y` has
the interpolated abscissa and no other. -/
theorem collinear_at_height_iff (p q : Point α) (x y : α) (hy : p.y ≠ q.y) :
    collinear p q ⟨x, y⟩ = true ↔ x = p.x + (q.x - p.x) * ((y - p.y) / (q.y - p.y)) := by
  have hd : q.y - p.y ≠ 0 := sub_ne_zero.mpr (Ne.symm hy)
  simp only [collinear, decide_eq_true_eq]
  constructor
  · intro h
    field_simp
    linear_combination -h
  · intro h
    rw [h]
    field_simp
    ring

/-- On a non-vertical line through `p` and `q`, the point at abscissa `x` has
the interpolated height and no other. -/
theorem collinear_at_abscissa_iff (p q : Point α) (x y : α) (hx : p.x ≠ q.x) :
    collinear p q ⟨x, y⟩ = true ↔ y = p.y + (q.y - p.y) * ((x - p.x) / (q.x - p.x)) := by
  have hd : q.x - p.x ≠ 0 := sub_ne_zero.mpr (Ne.symm hx)
  simp only [collinear, decide_eq_true_eq]
  constructor
  · intro h
    field_simp
    linear_combination h
  · intro h
    rw [h]
    field_simp
    ring

end Field

/-! ## The macros on floating-point coordinates: lemmas -/

/-- A vertex whose coordinates are numbers comes from a vertex on numbers. -/
theorem fp_exists_of_numbers (a : Vertex (Coord α)) (h : Fp.vertex_is_num a = true) :
    ∃ a' : Vertex α, a = Fp.of_numbers a' := by
  obtain ⟨i, ⟨x, y⟩⟩ := a
  cases x <;> cases y <;>
    simp [Fp.vertex_is_num, gb_tessellator_vertex_point, Coord.is_num] at h
  rename_i vx vy
  exact ⟨⟨i, ⟨vx, vy⟩⟩, rfl⟩

section FpLemmas

variable [LinearOrder α]

/-- On numbers the floating-point `vertex_eq` is the macro on numbers. -/
theorem fp_vertex_eq_of_numbers (a b : Vertex α) :
    Fp.gb_tessellator_vertex_eq (Fp.of_numbers a) (Fp.of_numbers b)
      = GBox.gb_tessellator_vertex_eq a b := rfl

/-- On numbers the floating-point `vertex_le_h` is the macro on numbers. -/
theorem fp_vertex_le_h_of_numbers (a b : Vertex α) :
    Fp.gb_tessellator_vertex_le_h (Fp.of_numbers a) (Fp.of_numbers b)
      = GBox.gb_tessellator_vertex_le_h a b := rfl

/-- On numbers the floating-point `vertex_le_v` is the macro on numbers. -/
theorem fp_vertex_le_v_of_numbers (a b : Vertex α) :
    Fp.gb_tessellator_vertex_le_v (Fp.of_numbers a) (Fp.of_numbers b)
      = GBox.gb_tessellator_vertex_le_v a b := rfl

/-- The floating-point `vertex_eq` holds only between vertices whose
coordinates are numbers. -/
theorem fp_vertex_eq_is_num (a b : Vertex (Coord α))
    (h : Fp.gb_tessellator_vertex_eq a b = true) :
    Fp.vertex_is_num a = true ∧ Fp.vertex_is_num b = true := by
  obtain ⟨ia, ⟨ax, ay⟩⟩ := a
  obtain ⟨ib, ⟨bx, bY⟩⟩ := b
  cases ax <;> cases ay <;> cases bx <;> cases bY <;>
    simp [Fp.gb_tessellator_vertex_eq, Fp.vertex_is_num, gb_tessellator_vertex_point,
      Coord.c_eq, Coord.is_num] at h ⊢

/-- Both directions of the floating-point horizontal order hold only between
vertices whose coordinates are numbers. -/
theorem fp_le_h_both_is_num (a b : Vertex (Coord α))
    (hab : Fp.gb_tessellator_vertex_le_h a b = true)
    (hba : Fp.gb_tessellator_vertex_le_h b a = true) :
    Fp.vertex_is_num a = true ∧ Fp.vertex_is_num b = true := by
  obtain ⟨ia, ⟨ax, ay⟩⟩ := a
  obtain ⟨ib, ⟨bx, bY⟩⟩ := b
  cases ax <;> cases ay <;> cases bx <;> cases bY <;>
    simp [Fp.gb_tessellator_vertex_le_h, Fp.vertex_is_num, gb_tessellator_vertex_point,
      Coord.c_eq, Coord.c_lt, Coord.c_le, Coord.is_num] at hab hba ⊢
  all_goals exact absurd hab (not_lt.mpr hba.le)

/-- Both directions of the floating-point vertical order hold only between
vertices whose coordinates are numbers. -/
theorem fp_le_v_both_is_num (a b : Vertex (Coord α))
    (hab : Fp.gb_tessellator_vertex_le_v a b = true)
    (hba : Fp.gb_tessellator_vertex_le_v b a = true) :
    Fp.vertex_is_num a = true ∧ Fp.vertex_is_num b = true := by
  obtain ⟨ia, ⟨ax, ay⟩⟩ := a
  obtain ⟨ib, ⟨bx, bY⟩⟩ := b
  cases ax <;> cases ay <;> cases bx <;> cases bY <;>
    simp [Fp.gb_tessellator_vertex_le_v, Fp.vertex_is_num, gb_tessellator_vertex_point,
      Coord.c_eq, Coord.c_lt, Coord.c_le, Coord.is_num] at hab hba ⊢
  all_goals exact absurd hab (not_lt.mpr hba.le)

/-- Both directions of the floating-point horizontal order hold exactly when
the floating-point `vertex_eq` holds. -/
theorem fp_le_h_both_iff_eq (a b : Vertex (Coord α)) :
    (Fp.gb_tessellator_vertex_le_h a b = true ∧ Fp.gb_tessellator_vertex_le_h b a = true) ↔
      Fp.gb_tessellator_vertex_eq a b = true := by
  constructor
  · rintro ⟨hab, hba⟩
    obtain ⟨ha, hb⟩ := fp_le_h_both_is_num a b hab hba
    obtain ⟨a', rfl⟩ := fp_exists_of_numbers a ha
    obtain ⟨b', rfl⟩ := fp_exists_of_numbers b hb
    rw [fp_vertex_le_h_of_numbers] at hab hba
    rw [fp_vertex_eq_of_numbers]
    exact (le_h_both_iff_eq a' b').mp ⟨hab, hba⟩
  · intro h
    obtain ⟨ha, hb⟩ := fp_vertex_eq_is_num a b h
    obtain ⟨a', rfl⟩ := fp_exists_of_numbers a ha
    obtain ⟨b', rfl⟩ := fp_exists_of_numbers b hb
    rw [fp_vertex_eq_of_numbers] at h
    rw [fp_vertex_le_h_of_numbers, fp_vertex_le_h_of_numbers]
    exact (le_h_both_iff_eq a' b').mpr h

/-- Both directions of the floating-point vertical order hold exactly when
the floating-point `vertex_eq` holds. -/
theorem fp_le_v_both_iff_eq (a b : Vertex (Coord α)) :
    (Fp.gb_tessellator_vertex_le_v a b = true ∧ Fp.gb_tessellator_vertex_le_v b a = true) ↔
      Fp.gb_tessellator_vertex_eq a b = true := by
  constructor
  · rintro ⟨hab, hba⟩
    obtain ⟨ha, hb⟩ := fp_le_v_both_is_num a b hab hba
    obtain ⟨a', rfl⟩ := fp_exists_of_numbers a ha
    obtain ⟨b', rfl⟩ := fp_exists_of_numbers b hb
    rw [fp_vertex_le_v_of_numbers] at hab hba
    rw [fp_vertex_eq_of_numbers]
    exact (le_v_both_iff_eq a' b').mp ⟨hab, hba⟩
  · intro h
    obtain ⟨ha, hb⟩ := fp_vertex_eq_is_num a b h
    obtain ⟨a', rfl⟩ := fp_exists_of_numbers a ha
    obtain ⟨b', rfl⟩ := fp_exists_of_numbers b hb
    rw [fp_vertex_eq_of_numbers] at h
    rw [fp_vertex_le_v_of_numbers, fp_vertex_le_v_of_numbers]
    exact (le_v_both_iff_eq a' b').mpr h

/-- Between vertices whose coordinates are numbers one direction of the
floating-point horizontal order holds. -/
theorem fp_le_h_or_ge_h (a b : Vertex (Coord α))
    (ha : Fp.vertex_is_num a = true) (hb : Fp.vertex_is_num b = true) :
    Fp.gb_tessellator_vertex_le_h a b = true ∨ Fp.gb_tessellator_vertex_le_h b a = true := by
  obtain ⟨a', rfl⟩ := fp_exists_of_numbers a ha
  obtain ⟨b', rfl⟩ := fp_exists_of_numbers b hb
  rw [fp_vertex_le_h_of_numbers, fp_vertex_le_h_of_numbers]
  exact le_h_or_ge_h a' b'

/-- Between vertices whose coordinates are numbers one direction of the
floating-point vertical order holds. -/
theorem fp_le_v_or_ge_v (a b : Vertex (Coord α))
    (ha : Fp.vertex_is_num a = true) (hb : Fp.vertex_is_num b = true) :
    Fp.gb_tessellator_vertex_le_v a b = true ∨ Fp.gb_tessellator_vertex_le_v b a = true := by
  obtain ⟨a', rfl⟩ := fp_exists_of_numbers a ha
  obtain ⟨b', rfl⟩ := fp_exists_of_numbers b hb
  rw [fp_vertex_le_v_of_numbers, fp_vertex_le_v_of_numbers]
  exact le_v_or_ge_v a' b'

/-- A proposition that holds is not false as a boolean. -/
theorem ne_true_of_eq_false {p : Bool} (hf : p = false) (ht : p = true) : False := by
  rw [hf] at ht
  exact Bool.false_ne_true ht

end FpLemmas

/-! ## Theorems -/

section OrderClaims

variable [LinearOrder α]

/-- C1: each of `gb_tessellator_vertex_le_h` and `gb_tessellator_vertex_le_v`
is transitive: for all vertices a, b, c, `le(a, b)` and `le(b, c)` imply
`le(a, c)`; the coordinates may repeat freely. -/
theorem vertex_le_trans (a b c : Vertex α) :
    (gb_tessellator_vertex_le_h a b = true → gb_tessellator_vertex_le_h b c = true →
        gb_tessellator_vertex_le_h a c = true) ∧
    (gb_tessellator_vertex_le_v a b = true → gb_tessellator_vertex_le_v b c = true →
        gb_tessellator_vertex_le_v a c = true) := by
  simp only [vertex_le_h_iff, vertex_le_v_iff]
  exact ⟨lex_le_trans, lex_le_trans⟩

/-- Witness of C1 on three vertices with duplicated coordinates. -/
theorem vertex_le_trans_witness :
    (gb_tessellator_vertex_le_h (mkVertex 0 (2 : ℤ) 1) (mkVertex 1 1 2) = true ∧
      gb_tessellator_vertex_le_h (mkVertex 1 (1 : ℤ) 2) (mkVertex 2 2 2) = true ∧
      gb_tessellator_vertex_le_h (mkVertex 0 (2 : ℤ) 1) (mkVertex 2 2 2) = true) ∧
    (gb_tessellator_vertex_le_v (mkVertex 0 (1 : ℤ) 2) (mkVertex 1 2 1) = true ∧
      gb_tessellator_vertex_le_v (mkVertex 1 (2 : ℤ) 1) (mkVertex 2 2 2) = true ∧
      gb_tessellator_vertex_le_v (mkVertex 0 (1 : ℤ) 2) (mkVertex 2 2 2) = true) :=
  ⟨⟨by decide, by decide,
      (vertex_le_trans (mkVertex 0 (2 : ℤ) 1) (mkVertex 1 1 2) (mkVertex 2 2 2)).1
        (by decide) (by decide)⟩,
    ⟨by decide, by decide,
      (vertex_le_trans (mkVertex 0 (1 : ℤ) 2) (mkVertex 1 2 1) (mkVertex 2 2 2)).2
        (by decide) (by decide)⟩⟩

/-- C2: each of `gb_tessellator_vertex_le_h` and `gb_tessellator_vertex_le_v`
is reflexive-equal and antisymmetric with respect to
`gb_tessellator_vertex_eq`: for all vertices a, b, `le(a, b)` and `le(b, a)`
both hold if and only if `vertex_eq(a, b)` holds, whatever the identities of
the two vertices.  It holds on coordinates that are numbers and on
floating-point coordinates, not-a-number included. -/
theorem vertex_le_both_iff_vertex_eq (a b : Vertex α) (fa fb : Vertex (Coord α)) :
    ((gb_tessellator_vertex_le_h a b = true ∧ gb_tessellator_vertex_le_h b a = true) ↔
        gb_tessellator_vertex_eq a b = true) ∧
    ((gb_tessellator_vertex_le_v a b = true ∧ gb_tessellator_vertex_le_v b a = true) ↔
        gb_tessellator_vertex_eq a b = true) ∧
    ((Fp.gb_tessellator_vertex_le_h fa fb = true ∧
        Fp.gb_tessellator_vertex_le_h fb fa = true) ↔
        Fp.gb_tessellator_vertex_eq fa fb = true) ∧
    ((Fp.gb_tessellator_vertex_le_v fa fb = true ∧
        Fp.gb_tessellator_vertex_le_v fb fa = true) ↔
        Fp.gb_tessellator_vertex_eq fa fb = true) :=
  ⟨le_h_both_iff_eq a b, le_v_both_iff_eq a b, fp_le_h_both_iff_eq fa fb,
    fp_le_v_both_iff_eq fa fb⟩

/-- C3, as the code has it: for all vertices a and b at different positions
(`vertex_eq(a, b)` false) at most one of `le(a, b)`, `le(b, a)` holds; and
when no coordinate of a or b is not-a-number every comparison resolves:
`le(a, b)` or `le(b, a)` holds, for both orders, and exactly one of the two
when the positions differ. -/
theorem vertex_le_total_of_numbers (a b : Vertex (Coord α)) :
    (Fp.gb_tessellator_vertex_eq a b = false →
      ¬ (Fp.gb_tessellator_vertex_le_h a b = true ∧
          Fp.gb_tessellator_vertex_le_h b a = true) ∧
      ¬ (Fp.gb_tessellator_vertex_le_v a b = true ∧
          Fp.gb_tessellator_vertex_le_v b a = true)) ∧
    (Fp.vertex_is_num a = true → Fp.vertex_is_num b = true →
      (Fp.gb_tessellator_vertex_le_h a b = true ∨
        Fp.gb_tessellator_vertex_le_h b a = true) ∧
      (Fp.gb_tessellator_vertex_le_v a b = true ∨
        Fp.gb_tessellator_vertex_le_v b a = true) ∧
      (Fp.gb_tessellator_vertex_eq a b = false →
        (Fp.gb_tessellator_vertex_le_h a b = true ↔
          Fp.gb_tessellator_vertex_le_h b a = false) ∧
        (Fp.gb_tessellator_vertex_le_v a b = true ↔
          Fp.gb_tessellator_vertex_le_v b a = false))) := by
  have hmost : Fp.gb_tessellator_vertex_eq a b = false →
      ¬ (Fp.gb_tessellator_vertex_le_h a b = true ∧
          Fp.gb_tessellator_vertex_le_h b a = true) ∧
      ¬ (Fp.gb_tessellator_vertex_le_v a b = true ∧
          Fp.gb_tessellator_vertex_le_v b a = true) := by
    intro hne
    exact ⟨fun hboth => ne_true_of_eq_false hne ((fp_le_h_both_iff_eq a b).mp hboth),
      fun hboth => ne_true_of_eq_false hne ((fp_le_v_both_iff_eq a b).mp hboth)⟩
  refine ⟨hmost, fun ha hb => ⟨fp_le_h_or_ge_h a b ha hb, fp_le_v_or_ge_v a b ha hb, ?_⟩⟩
  intro hne
  exact ⟨bool_exactly_one (fp_le_h_or_ge_h a b ha hb) (hmost hne).1,
    bool_exactly_one (fp_le_v_or_ge_v a b ha hb) (hmost hne).2⟩

/-- Witness of C3 as the code has it, on two vertices at different positions
whose coordinates are numbers. -/
theorem vertex_le_total_of_numbers_witness :
    Fp.vertex_is_num (mkVertex 0 (Coord.num (5 : ℚ)) (Coord.num 1)) = true ∧
    Fp.vertex_is_num (mkVertex 1 (Coord.num (2 : ℚ)) (Coord.num 3)) = true ∧
    Fp.gb_tessellator_vertex_eq (mkVertex 0 (Coord.num (5 : ℚ)) (Coord.num 1))
      (mkVertex 1 (Coord.num 2) (Coord.num 3)) = false ∧
    (Fp.gb_tessellator_vertex_le_h (mkVertex 0 (Coord.num (5 : ℚ)) (Coord.num 1))
        (mkVertex 1 (Coord.num 2) (Coord.num 3)) = true ↔
      Fp.gb_tessellator_vertex_le_h (mkVertex 1 (Coord.num (2 : ℚ)) (Coord.num 3))
        (mkVertex 0 (Coord.num 5) (Coord.num 1)) = false) ∧
    (Fp.gb_tessellator_vertex_le_v (mkVertex 0 (Coord.num (5 : ℚ)) (Coord.num 1))
        (mkVertex 1 (Coord.num 2) (Coord.num 3)) = true ↔
      Fp.gb_tessellator_vertex_le_v (mkVertex 1 (Coord.num (2 : ℚ)) (Coord.num 3))
        (mkVertex 0 (Coord.num 5) (Coord.num 1)) = false) :=
  ⟨by decide, by decide, by decide,
    ((vertex_le_total_of_numbers (mkVertex 0 (Coord.num (5 : ℚ)) (Coord.num 1))
      (mkVertex 1 (Coord.num 2) (Coord.num 3))).2 (by decide) (by decide)).2.2 (by decide)⟩

/-- C3 fails as stated: with a = (0, NaN) and b = (0, 1) neither `le(a, b)`
nor `le(b, a)` holds, in the horizontal and in the vertical order. -/
theorem vertex_le_total_counterexample :
    ¬ (Fp.gb_tessellator_vertex_le_h (mkVertex 0 (Coord.num (0 : ℚ)) Coord.nan)
          (mkVertex 1 (Coord.num 0) (Coord.num 1)) = true ∨
        Fp.gb_tessellator_vertex_le_h (mkVertex 1 (Coord.num (0 : ℚ)) (Coord.num 1))
          (mkVertex 0 (Coord.num 0) Coord.nan) = true) ∧
    ¬ (Fp.gb_tessellator_vertex_le_v (mkVertex 0 (Coord.num (0 : ℚ)) Coord.nan)
          (mkVertex 1 (Coord.num 0) (Coord.num 1)) = true ∨
        Fp.gb_tessellator_vertex_le_v (mkVertex 1 (Coord.num (0 : ℚ)) (Coord.num 1))
          (mkVertex 0 (Coord.num 0) Coord.nan) = true) := by
  decide

/-- C4: `gb_tessellator_vertex_le_h(a, b)` holds iff `(a.y, a.x)` is
lexicographically less than or equal to `(b.y, b.x)`; a vertex on a row with
smaller y precedes (and is not preceded by) every vertex on a row with larger
y, whatever the x coordinates, and vertices with equal y are ordered by x. -/
theorem vertex_le_h_lex (a b : Vertex α) :
    (gb_tessellator_vertex_le_h a b = true ↔
        toLex (a.point.y, a.point.x) ≤ toLex (b.point.y, b.point.x)) ∧
    (a.point.y < b.point.y →
        gb_tessellator_vertex_le_h a b = true ∧ gb_tessellator_vertex_le_h b a = false) ∧
    (a.point.y = b.point.y →
        (gb_tessellator_vertex_le_h a b = true ↔ a.point.x ≤ b.point.x)) := by
  refine ⟨?_, ?_, ?_⟩
  · rw [vertex_le_h_iff, Prod.Lex.le_iff]
  · intro h
    refine ⟨(vertex_le_h_iff a b).mpr (Or.inl h), ?_⟩
    rw [Bool.eq_false_iff]
    intro hba
    rcases (vertex_le_h_iff b a).mp hba with h2 | ⟨e, _⟩
    · exact lt_asymm h h2
    · exact absurd (e ▸ h) (lt_irrefl _)
  · intro h
    rw [vertex_le_h_iff]
    constructor
    · rintro (h2 | ⟨_, l⟩)
      · exact absurd (h ▸ h2) (lt_irrefl _)
      · exact l
    · intro l
      exact Or.inr ⟨h, l⟩

/-- Witness of C4: a smaller y wins against a larger x, and on one row the
order is the order of x. -/
theorem vertex_le_h_lex_witness :
    ((1 : ℤ) < 2 ∧
      gb_tessellator_vertex_le_h (mkVertex 0 (9 : ℤ) 1) (mkVertex 1 0 2) = true ∧
      gb_tessellator_vertex_le_h (mkVertex 1 (0 : ℤ) 2) (mkVertex 0 9 1) = false) ∧
    (gb_tessellator_vertex_le_h (mkVertex 0 (3 : ℤ) 2) (mkVertex 1 4 2) = true ↔ (3 : ℤ) ≤ 4) :=
  ⟨⟨by decide, (vertex_le_h_lex (mkVertex 0 (9 : ℤ) 1) (mkVertex 1 0 2)).2.1 (by decide)⟩,
    (vertex_le_h_lex (mkVertex 0 (3 : ℤ) 2) (mkVertex 1 4 2)).2.2 rfl⟩

/-- C5: `gb_tessellator_vertex_le_v(a, b)` holds iff `(a.x, a.y)` is
lexicographically less than or equal to `(b.x, b.y)`; a vertex in a column
with smaller x precedes (and is not preceded by) every vertex in a column with
larger x, whatever the y coordinates, and vertices with equal x are ordered by
y. -/
theorem vertex_le_v_lex (a b : Vertex α) :
    (gb_tessellator_vertex_le_v a b = true ↔
        toLex (a.point.x, a.point.y) ≤ toLex (b.point.x, b.point.y)) ∧
    (a.point.x < b.point.x →
        gb_tessellator_vertex_le_v a b = true ∧ gb_tessellator_vertex_le_v b a = false) ∧
    (a.point.x = b.point.x →
        (gb_tessellator_vertex_le_v a b = true ↔ a.point.y ≤ b.point.y)) := by
  refine ⟨?_, ?_, ?_⟩
  · rw [vertex_le_v_iff, Prod.Lex.le_iff]
  · intro h
    refine ⟨(vertex_le_v_iff a b).mpr (Or.inl h), ?_⟩
    rw [Bool.eq_false_iff]
    intro hba
    rcases (vertex_le_v_iff b a).mp hba with h2 | ⟨e, _⟩
    · exact lt_asymm h h2
    · exact absurd (e ▸ h) (lt_irrefl _)
  · intro h
    rw [vertex_le_v_iff]
    constructor
    · rintro (h2 | ⟨_, l⟩)
      · exact absurd (h ▸ h2) (lt_irrefl _)
      · exact l
    · intro l
      exact Or.inr ⟨h, l⟩

/-- Witness of C5: a smaller x wins against a larger y, and in one column the
order is the order of y. -/
theorem vertex_le_v_lex_witness :
    ((1 : ℤ) < 2 ∧
      gb_tessellator_vertex_le_v (mkVertex 0 (1 : ℤ) 9) (mkVertex 1 2 0) = true ∧
      gb_tessellator_vertex_le_v (mkVertex 1 (2 : ℤ) 0) (mkVertex 0 1 9) = false) ∧
    (gb_tessellator_vertex_le_v (mkVertex 0 (2 : ℤ) 3) (mkVertex 1 2 4) = true ↔ (3 : ℤ) ≤ 4) :=
  ⟨⟨by decide, (vertex_le_v_lex (mkVertex 0 (1 : ℤ) 9) (mkVertex 1 2 0)).2.1 (by decide)⟩,
    (vertex_le_v_lex (mkVertex 0 (2 : ℤ) 3) (mkVertex 1 2 4)).2.2 rfl⟩

/-- C6, as the code has it: `gb_tessellator_vertex_eq(a, b)` is true iff
`a.x == b.x` and `a.y == b.y`, that is iff the two positions are identical
and hold no not-a-number; it is symmetric and transitive on all vertices, and
`vertex_eq(a, a)` holds exactly when no coordinate of a is not-a-number. -/
theorem vertex_eq_partial_equivalence (a b c : Vertex (Coord α)) :
    (Fp.gb_tessellator_vertex_eq a b = true ↔
        Coord.c_eq a.point.x b.point.x = true ∧ Coord.c_eq a.point.y b.point.y = true) ∧
    (Fp.gb_tessellator_vertex_eq a b = true ↔
        Fp.vertex_is_num a = true ∧ a.point = b.point) ∧
    (Fp.gb_tessellator_vertex_eq a a = true ↔ Fp.vertex_is_num a = true) ∧
    (Fp.gb_tessellator_vertex_eq a b = true → Fp.gb_tessellator_vertex_eq b a = true) ∧
    (Fp.gb_tessellator_vertex_eq a b = true → Fp.gb_tessellator_vertex_eq b c = true →
        Fp.gb_tessellator_vertex_eq a c = true) := by
  obtain ⟨ia, ⟨ax, ay⟩⟩ := a
  obtain ⟨ib, ⟨bx, bY⟩⟩ := b
  obtain ⟨ic, ⟨cx, cy⟩⟩ := c
  refine ⟨?_, ?_, ?_, ?_, ?_⟩
  · simp [Fp.gb_tessellator_vertex_eq, gb_tessellator_vertex_point]
  · cases ax <;> cases ay <;> cases bx <;> cases bY <;>
      simp [Fp.gb_tessellator_vertex_eq, Fp.vertex_is_num, gb_tessellator_vertex_point,
        Coord.c_eq, Coord.is_num]
  · cases ax <;> cases ay <;>
      simp [Fp.gb_tessellator_vertex_eq, Fp.vertex_is_num, gb_tessellator_vertex_point,
        Coord.c_eq, Coord.is_num]
  · cases ax <;> cases ay <;> cases bx <;> cases bY <;>
      simp [Fp.gb_tessellator_vertex_eq, gb_tessellator_vertex_point, Coord.c_eq]
    intro hx hy
    exact ⟨hx.symm, hy.symm⟩
  · cases ax <;> cases ay <;> cases bx <;> cases bY <;> cases cx <;> cases cy <;>
      simp [Fp.gb_tessellator_vertex_eq, gb_tessellator_vertex_point, Coord.c_eq]
    intro h1 h2 h3 h4
    exact ⟨h1.trans h3, h2.trans h4⟩

/-- Witness of C6 as the code has it, on three different vertices at one
position whose coordinates are numbers. -/
theorem vertex_eq_partial_equivalence_witness :
    Fp.gb_tessellator_vertex_eq (mkVertex 0 (Coord.num (1 : ℚ)) (Coord.num 2))
      (mkVertex 1 (Coord.num 1) (Coord.num 2)) = true ∧
    Fp.gb_tessellator_vertex_eq (mkVertex 1 (Coord.num (1 : ℚ)) (Coord.num 2))
      (mkVertex 2 (Coord.num 1) (Coord.num 2)) = true ∧
    Fp.gb_tessellator_vertex_eq (mkVertex 1 (Coord.num (1 : ℚ)) (Coord.num 2))
      (mkVertex 0 (Coord.num 1) (Coord.num 2)) = true ∧
    Fp.gb_tessellator_vertex_eq (mkVertex 0 (Coord.num (1 : ℚ)) (Coord.num 2))
      (mkVertex 2 (Coord.num 1) (Coord.num 2)) = true :=
  ⟨by decide, by decide,
    (vertex_eq_partial_equivalence (mkVertex 0 (Coord.num (1 : ℚ)) (Coord.num 2))
      (mkVertex 1 (Coord.num 1) (Coord.num 2))
      (mkVertex 2 (Coord.num 1) (Coord.num 2))).2.2.2.1 (by decide),
    (vertex_eq_partial_equivalence (mkVertex 0 (Coord.num (1 : ℚ)) (Coord.num 2))
      (mkVertex 1 (Coord.num 1) (Coord.num 2))
      (mkVertex 2 (Coord.num 1) (Coord.num 2))).2.2.2.2 (by decide) (by decide)⟩

/-- C6 fails as stated: `vertex_eq` is not reflexive, `vertex_eq(a, a)` is
false for the vertex a = (NaN, 0). -/
theorem vertex_eq_reflexive_counterexample :
    ¬ (Fp.gb_tessellator_vertex_eq (mkVertex 0 Coord.nan (Coord.num (0 : ℚ)))
        (mkVertex 0 Coord.nan (Coord.num 0)) = true) := by
  decide

/-- C7: the four edge classifiers are the two vertex orders applied to the
endpoints of the edge: `edge_go_right(e)` iff `vertex_le_v(org, dst)`,
`edge_go_left(e)` iff `vertex_le_v(dst, org)`, `edge_go_down(e)` iff
`vertex_le_h(org, dst)` and `edge_go_up(e)` iff `vertex_le_h(dst, org)`. -/
theorem edge_go_eq_vertex_le (e : Edge α) :
    (gb_tessellator_edge_go_right e = true ↔
        gb_tessellator_vertex_le_v (gb_mesh_edge_org e) (gb_mesh_edge_dst e) = true) ∧
    (gb_tessellator_edge_go_left e = true ↔
        gb_tessellator_vertex_le_v (gb_mesh_edge_dst e) (gb_mesh_edge_org e) = true) ∧
    (gb_tessellator_edge_go_down e = true ↔
        gb_tessellator_vertex_le_h (gb_mesh_edge_org e) (gb_mesh_edge_dst e) = true) ∧
    (gb_tessellator_edge_go_up e = true ↔
        gb_tessellator_vertex_le_h (gb_mesh_edge_dst e) (gb_mesh_edge_org e) = true) :=
  ⟨Iff.rfl, Iff.rfl, Iff.rfl, Iff.rfl⟩

end OrderClaims

section FieldClaims

variable [LinearOrderedField α]

/-- C8: for every non-degenerate triple, that is with the edge not parallel to
the sweep line and its endpoints named in sweep order (`a.y < b.y` for the
horizontal evaluators, `a.x < b.x` for the vertical ones),
`gb_tessellator_position_h(center, a, b)` is the sign of
`gb_tessellator_distance_h(center, a, b)` and
`gb_tessellator_position_v(center, a, b)` is the sign of
`gb_tessellator_distance_v(center, a, b)`. -/
theorem position_eq_sign_distance (center a b : Vertex α) :
    (a.point.y < b.point.y →
      gb_tessellator_position_h center a b = sign_of (gb_tessellator_distance_h center a b)) ∧
    (a.point.x < b.point.x →
      gb_tessellator_position_v center a b = sign_of (gb_tessellator_distance_v center a b)) := by
  constructor
  · intro h
    rw [distance_h_eq_div center a b (ne_of_lt h), sign_of_div_pos _ (sub_pos.mpr h)]
    rfl
  · intro h
    rw [distance_v_eq_div center a b (ne_of_lt h), sign_of_div_pos _ (sub_pos.mpr h)]
    rfl

/-- Witness of C8: a centre to the right of a slanted edge, and a centre
below (larger y) a slanted edge. -/
theorem position_eq_sign_distance_witness :
    ((0 : ℚ) < 2 ∧
      gb_tessellator_position_h (mkVertex 0 (3 : ℚ) 1) (mkVertex 1 0 0) (mkVertex 2 2 2) =
        sign_of (gb_tessellator_distance_h (mkVertex 0 (3 : ℚ) 1) (mkVertex 1 0 0)
          (mkVertex 2 2 2))) ∧
    ((0 : ℚ) < 2 ∧
      gb_tessellator_position_v (mkVertex 0 (1 : ℚ) 3) (mkVertex 1 0 0) (mkVertex 2 2 2) =
        sign_of (gb_tessellator_distance_v (mkVertex 0 (1 : ℚ) 3) (mkVertex 1 0 0)
          (mkVertex 2 2 2))) :=
  ⟨⟨by norm_num,
      (position_eq_sign_distance (mkVertex 0 (3 : ℚ) 1) (mkVertex 1 0 0) (mkVertex 2 2 2)).1
        (by norm_num [mkVertex])⟩,
    ⟨by norm_num,
      (position_eq_sign_distance (mkVertex 0 (1 : ℚ) 3) (mkVertex 1 0 0) (mkVertex 2 2 2)).2
        (by norm_num [mkVertex])⟩⟩

/-- C9: for `upper <= center <= lower` in the horizontal sweep order with
`upper.y < lower.y`, `gb_tessellator_distance_h(center, upper, lower)` is
`center.x` minus the x coordinate of the point of the line through `upper` and
`lower` at height `center.y`: moving `center` back by the distance lands on
that line, every point of the line at that height is at that offset, and the
distance is positive exactly when `center` has the greater x.  Symmetrically,
for `left <= center <= right` in the vertical sweep order with
`left.x < right.x`, `gb_tessellator_distance_v(center, left, right)` is
`center.y` minus the y coordinate of the line at abscissa `center.x`. -/
theorem distance_is_offset_from_line (center a b : Vertex α) :
    (gb_tessellator_vertex_le_h a center = true →
      gb_tessellator_vertex_le_h center b = true → a.point.y < b.point.y →
      collinear a.point b.point
        ⟨center.point.x - gb_tessellator_distance_h center a b, center.point.y⟩ = true ∧
      ∀ x : α, collinear a.point b.point ⟨x, center.point.y⟩ = true →
        gb_tessellator_distance_h center a b = center.point.x - x ∧
        (0 < gb_tessellator_distance_h center a b ↔ x < center.point.x)) ∧
    (gb_tessellator_vertex_le_v a center = true →
      gb_tessellator_vertex_le_v center b = true → a.point.x < b.point.x →
      collinear a.point b.point
        ⟨center.point.x, center.point.y - gb_tessellator_distance_v center a b⟩ = true ∧
      ∀ y : α, collinear a.point b.point ⟨center.point.x, y⟩ = true →
        gb_tessellator_distance_v center a b = center.point.y - y ∧
        (0 < gb_tessellator_distance_v center a b ↔ y < center.point.y)) := by
  constructor
  · intro _ _ hy
    have hne : a.point.y ≠ b.point.y := ne_of_lt hy
    constructor
    · rw [collinear_at_height_iff _ _ _ _ hne]
      simp only [gb_tessellator_distance_h, gb_tessellator_vertex_point]
      ring
    · intro x hx
      rw [collinear_at_height_iff _ _ _ _ hne] at hx
      have hd : gb_tessellator_distance_h center a b = center.point.x - x := by
        rw [hx]
        rfl
      exact ⟨hd, by rw [hd]; exact sub_pos⟩
  · intro _ _ hx
    have hne : a.point.x ≠ b.point.x := ne_of_lt hx
    constructor
    · rw [collinear_at_abscissa_iff _ _ _ _ hne]
      simp only [gb_tessellator_distance_v, gb_tessellator_vertex_point]
      ring
    · intro y hy
      rw [collinear_at_abscissa_iff _ _ _ _ hne] at hy
      have hd : gb_tessellator_distance_v center a b = center.point.y - y := by
        rw [hy]
        rfl
      exact ⟨hd, by rw [hd]; exact sub_pos⟩

/-- Witness of C9: the edge from (0,0) to (2,2) passes through (1,1); the
centre (3,1) is at horizontal distance 2 from it and the centre (1,3) at
vertical distance 2. -/
theorem distance_is_offset_from_line_witness :
    (gb_tessellator_vertex_le_h (mkVertex 1 (0 : ℚ) 0) (mkVertex 0 3 1) = true ∧
      gb_tessellator_vertex_le_h (mkVertex 0 (3 : ℚ) 1) (mkVertex 2 2 2) = true ∧
      collinear (mkVertex 1 (0 : ℚ) 0).point (mkVertex 2 (2 : ℚ) 2).point ⟨1, 1⟩ = true ∧
      gb_tessellator_distance_h (mkVertex 0 (3 : ℚ) 1) (mkVertex 1 0 0) (mkVertex 2 2 2)
        = 3 - 1) ∧
    (gb_tessellator_vertex_le_v (mkVertex 1 (0 : ℚ) 0) (mkVertex 0 1 3) = true ∧
      gb_tessellator_vertex_le_v (mkVertex 0 (1 : ℚ) 3) (mkVertex 2 2 2) = true ∧
      collinear (mkVertex 1 (0 : ℚ) 0).point (mkVertex 2 (2 : ℚ) 2).point ⟨1, 1⟩ = true ∧
      gb_tessellator_distance_v (mkVertex 0 (1 : ℚ) 3) (mkVertex 1 0 0) (mkVertex 2 2 2)
        = 3 - 1) :=
  ⟨⟨by decide, by decide, by norm_num [collinear, mkVertex],
      (((distance_is_offset_from_line (mkVertex 0 (3 : ℚ) 1) (mkVertex 1 0 0)
          (mkVertex 2 2 2)).1 (by decide) (by decide) (by norm_num [mkVertex])).2 1
        (by norm_num [collinear, mkVertex])).1⟩,
    ⟨by decide, by decide, by norm_num [collinear, mkVertex],
      (((distance_is_offset_from_line (mkVertex 0 (1 : ℚ) 3) (mkVertex 1 0 0)
          (mkVertex 2 2 2)).2 (by decide) (by decide) (by norm_num [mkVertex])).2 1
        (by norm_num [collinear, mkVertex])).1⟩⟩

end FieldClaims

section EdgeClaims

variable [LinearOrder α]

/-- C12, as the code has it: for every edge at most one of left/right and at
most one of up/down holds when its endpoints differ in position, and all four
hold when `vertex_eq(org, dst)` holds; for every edge none of whose endpoint
coordinates is not-a-number the classification is exhaustive: the edge goes
left or right and goes up or down, exactly one of each when its endpoints
differ in position. -/
theorem edge_go_exhaustive_of_numbers (e : Edge (Coord α)) :
    (Fp.gb_tessellator_vertex_eq (gb_mesh_edge_org e) (gb_mesh_edge_dst e) = false →
      ¬ (Fp.gb_tessellator_edge_go_left e = true ∧
          Fp.gb_tessellator_edge_go_right e = true) ∧
      ¬ (Fp.gb_tessellator_edge_go_up e = true ∧
          Fp.gb_tessellator_edge_go_down e = true)) ∧
    (Fp.gb_tessellator_vertex_eq (gb_mesh_edge_org e) (gb_mesh_edge_dst e) = true →
      Fp.gb_tessellator_edge_go_left e = true ∧ Fp.gb_tessellator_edge_go_right e = true ∧
      Fp.gb_tessellator_edge_go_up e = true ∧ Fp.gb_tessellator_edge_go_down e = true) ∧
    (Fp.vertex_is_num (gb_mesh_edge_org e) = true →
      Fp.vertex_is_num (gb_mesh_edge_dst e) = true →
      (Fp.gb_tessellator_edge_go_left e = true ∨
        Fp.gb_tessellator_edge_go_right e = true) ∧
      (Fp.gb_tessellator_edge_go_up e = true ∨ Fp.gb_tessellator_edge_go_down e = true) ∧
      (Fp.gb_tessellator_vertex_eq (gb_mesh_edge_org e) (gb_mesh_edge_dst e) = false →
        (Fp.gb_tessellator_edge_go_left e = true ↔
          Fp.gb_tessellator_edge_go_right e = false) ∧
        (Fp.gb_tessellator_edge_go_up e = true ↔
          Fp.gb_tessellator_edge_go_down e = false))) := by
  unfold Fp.gb_tessellator_edge_go_left Fp.gb_tessellator_edge_go_right
    Fp.gb_tessellator_edge_go_up Fp.gb_tessellator_edge_go_down
  have hmost : Fp.gb_tessellator_vertex_eq (gb_mesh_edge_org e) (gb_mesh_edge_dst e) = false →
      ¬ (Fp.gb_tessellator_vertex_le_v (gb_mesh_edge_dst e) (gb_mesh_edge_org e) = true ∧
          Fp.gb_tessellator_vertex_le_v (gb_mesh_edge_org e) (gb_mesh_edge_dst e) = true) ∧
      ¬ (Fp.gb_tessellator_vertex_le_h (gb_mesh_edge_dst e) (gb_mesh_edge_org e) = true ∧
          Fp.gb_tessellator_vertex_le_h (gb_mesh_edge_org e) (gb_mesh_edge_dst e) = true) := by
    intro hne
    exact ⟨fun hboth => ne_true_of_eq_false hne
        ((fp_le_v_both_iff_eq _ _).mp ⟨hboth.2, hboth.1⟩),
      fun hboth => ne_true_of_eq_false hne
        ((fp_le_h_both_iff_eq _ _).mp ⟨hboth.2, hboth.1⟩)⟩
  refine ⟨hmost, ?_, ?_⟩
  · intro heq
    have hv := (fp_le_v_both_iff_eq _ _).mpr heq
    have hh := (fp_le_h_both_iff_eq _ _).mpr heq
    exact ⟨hv.2, hv.1, hh.2, hh.1⟩
  · intro ho hd
    refine ⟨fp_le_v_or_ge_v _ _ hd ho, fp_le_h_or_ge_h _ _ hd ho, ?_⟩
    intro hne
    exact ⟨bool_exactly_one (fp_le_v_or_ge_v _ _ hd ho) (hmost hne).1,
      bool_exactly_one (fp_le_h_or_ge_h _ _ hd ho) (hmost hne).2⟩

/-- Witness of C12 as the code has it: a slanted edge on numbers going right
and up only, and an edge between two different vertices at one position going
all four ways. -/
theorem edge_go_exhaustive_of_numbers_witness :
    (Fp.vertex_is_num (mkVertex 0 (Coord.num (0 : ℚ)) (Coord.num 5)) = true ∧
      Fp.vertex_is_num (mkVertex 1 (Coord.num (3 : ℚ)) (Coord.num 1)) = true ∧
      Fp.gb_tessellator_vertex_eq (mkVertex 0 (Coord.num (0 : ℚ)) (Coord.num 5))
        (mkVertex 1 (Coord.num 3) (Coord.num 1)) = false ∧
      (Fp.gb_tessellator_edge_go_left
          ⟨mkVertex 0 (Coord.num (0 : ℚ)) (Coord.num 5),
            mkVertex 1 (Coord.num 3) (Coord.num 1)⟩ = true ↔
        Fp.gb_tessellator_edge_go_right
          ⟨mkVertex 0 (Coord.num (0 : ℚ)) (Coord.num 5),
            mkVertex 1 (Coord.num 3) (Coord.num 1)⟩ = false) ∧
      (Fp.gb_tessellator_edge_go_up
          ⟨mkVertex 0 (Coord.num (0 : ℚ)) (Coord.num 5),
            mkVertex 1 (Coord.num 3) (Coord.num 1)⟩ = true ↔
        Fp.gb_tessellator_edge_go_down
          ⟨mkVertex 0 (Coord.num (0 : ℚ)) (Coord.num 5),
            mkVertex 1 (Coord.num 3) (Coord.num 1)⟩ = false)) ∧
    (Fp.gb_tessellator_vertex_eq (mkVertex 0 (Coord.num (2 : ℚ)) (Coord.num 2))
        (mkVertex 1 (Coord.num 2) (Coord.num 2)) = true ∧
      Fp.gb_tessellator_edge_go_left
        ⟨mkVertex 0 (Coord.num (2 : ℚ)) (Coord.num 2),
          mkVertex 1 (Coord.num 2) (Coord.num 2)⟩ = true ∧
      Fp.gb_tessellator_edge_go_right
        ⟨mkVertex 0 (Coord.num (2 : ℚ)) (Coord.num 2),
          mkVertex 1 (Coord.num 2) (Coord.num 2)⟩ = true ∧
      Fp.gb_tessellator_edge_go_up
        ⟨mkVertex 0 (Coord.num (2 : ℚ)) (Coord.num 2),
          mkVertex 1 (Coord.num 2) (Coord.num 2)⟩ = true ∧
      Fp.gb_tessellator_edge_go_down
        ⟨mkVertex 0 (Coord.num (2 : ℚ)) (Coord.num 2),
          mkVertex 1 (Coord.num 2) (Coord.num 2)⟩ = true) :=
  ⟨⟨by decide, by decide, by decide,
      ((edge_go_exhaustive_of_numbers
        ⟨mkVertex 0 (Coord.num (0 : ℚ)) (Coord.num 5),
          mkVertex 1 (Coord.num 3) (Coord.num 1)⟩).2.2 (by decide) (by decide)).2.2
        (by decide)⟩,
    ⟨by decide,
      (edge_go_exhaustive_of_numbers
        ⟨mkVertex 0 (Coord.num (2 : ℚ)) (Coord.num 2),
          mkVertex 1 (Coord.num 2) (Coord.num 2)⟩).2.1 (by decide)⟩⟩

/-- C12 fails as stated: the edge from (NaN, 0) to (1, 0) goes neither left
nor right, and neither up nor down. -/
theorem edge_go_exhaustive_counterexample :
    ¬ (Fp.gb_tessellator_edge_go_left
          ⟨mkVertex 0 Coord.nan (Coord.num (0 : ℚ)),
            mkVertex 1 (Coord.num 1) (Coord.num 0)⟩ = true ∨
        Fp.gb_tessellator_edge_go_right
          ⟨mkVertex 0 Coord.nan (Coord.num (0 : ℚ)),
            mkVertex 1 (Coord.num 1) (Coord.num 0)⟩ = true) ∧
    ¬ (Fp.gb_tessellator_edge_go_up
          ⟨mkVertex 0 Coord.nan (Coord.num (0 : ℚ)),
            mkVertex 1 (Coord.num 1) (Coord.num 0)⟩ = true ∨
        Fp.gb_tessellator_edge_go_down
          ⟨mkVertex 0 Coord.nan (Coord.num (0 : ℚ)),
            mkVertex 1 (Coord.num 1) (Coord.num 0)⟩ = true) := by
  decide

/-- C13: reversing an edge swaps its classification: for every edge e and
every edge e' with `org(e') = dst(e)` and `dst(e') = org(e)`,
`edge_go_left(e)` iff `edge_go_right(e')` and `edge_go_up(e)` iff
`edge_go_down(e')`. -/
theorem edge_go_twin_swap (e e' : Edge α)
    (horg : gb_mesh_edge_org e' = gb_mesh_edge_dst e)
    (hdst : gb_mesh_edge_dst e' = gb_mesh_edge_org e) :
    (gb_tessellator_edge_go_left e = true ↔ gb_tessellator_edge_go_right e' = true) ∧
    (gb_tessellator_edge_go_up e = true ↔ gb_tessellator_edge_go_down e' = true) := by
  unfold gb_tessellator_edge_go_left gb_tessellator_edge_go_right
    gb_tessellator_edge_go_up gb_tessellator_edge_go_down
  rw [horg, hdst]
  exact ⟨Iff.rfl, Iff.rfl⟩

/-- Witness of C13 on an edge and its twin. -/
theorem edge_go_twin_swap_witness :
    (gb_tessellator_edge_go_left ⟨mkVertex 0 (4 : ℤ) 1, mkVertex 1 2 3⟩ = true ↔
      gb_tessellator_edge_go_right ⟨mkVertex 1 (2 : ℤ) 3, mkVertex 0 4 1⟩ = true) ∧
    (gb_tessellator_edge_go_up ⟨mkVertex 0 (4 : ℤ) 1, mkVertex 1 2 3⟩ = true ↔
      gb_tessellator_edge_go_down ⟨mkVertex 1 (2 : ℤ) 3, mkVertex 0 4 1⟩ = true) :=
  edge_go_twin_swap ⟨mkVertex 0 (4 : ℤ) 1, mkVertex 1 2 3⟩
    ⟨mkVertex 1 (2 : ℤ) 3, mkVertex 0 4 1⟩ rfl rfl

/-- C14: on axis-aligned edges the two sweep orders agree: for every edge e
with `org.x == dst.x` or `org.y == dst.y`, `edge_go_right(e)` iff
`edge_go_down(e)` and `edge_go_left(e)` iff `edge_go_up(e)`; and for all
vertices a, b with `a.x <= b.x` and `a.y <= b.y` both `vertex_le_h(a, b)` and
`vertex_le_v(a, b)` hold. -/
theorem axis_aligned_orders_agree (e : Edge α) (a b : Vertex α) :
    (((gb_mesh_edge_org e).point.x = (gb_mesh_edge_dst e).point.x ∨
        (gb_mesh_edge_org e).point.y = (gb_mesh_edge_dst e).point.y) →
      (gb_tessellator_edge_go_right e = true ↔ gb_tessellator_edge_go_down e = true) ∧
      (gb_tessellator_edge_go_left e = true ↔ gb_tessellator_edge_go_up e = true)) ∧
    (a.point.x ≤ b.point.x → a.point.y ≤ b.point.y →
      gb_tessellator_vertex_le_h a b = true ∧ gb_tessellator_vertex_le_v a b = true) := by
  constructor
  · unfold gb_tessellator_edge_go_left gb_tessellator_edge_go_right
      gb_tessellator_edge_go_up gb_tessellator_edge_go_down
    simp only [vertex_le_h_iff, vertex_le_v_iff]
    generalize (gb_mesh_edge_org e).point = p
    generalize (gb_mesh_edge_dst e).point = q
    rintro (hx | hy)
    · constructor
      · constructor
        · rintro (h | ⟨_, h⟩)
          · exact absurd (hx ▸ h) (lt_irrefl _)
          · rcases lt_or_eq_of_le h with h1 | h1
            · exact Or.inl h1
            · exact Or.inr ⟨h1, hx.le⟩
        · rintro (h | ⟨h, _⟩)
          · exact Or.inr ⟨hx, h.le⟩
          · exact Or.inr ⟨hx, h.le⟩
      · constructor
        · rintro (h | ⟨_, h⟩)
          · exact absurd (hx ▸ h) (lt_irrefl _)
          · rcases lt_or_eq_of_le h with h1 | h1
            · exact Or.inl h1
            · exact Or.inr ⟨h1, hx.ge⟩
        · rintro (h | ⟨h, _⟩)
          · exact Or.inr ⟨hx.symm, h.le⟩
          · exact Or.inr ⟨hx.symm, h.le⟩
    · constructor
      · constructor
        · rintro (h | ⟨h, _⟩)
          · exact Or.inr ⟨hy, h.le⟩
          · exact Or.inr ⟨hy, h.le⟩
        · rintro (h | ⟨_, h⟩)
          · exact absurd (hy ▸ h) (lt_irrefl _)
          · rcases lt_or_eq_of_le h with h1 | h1
            · exact Or.inl h1
            · exact Or.inr ⟨h1, hy.le⟩
      · constructor
        · rintro (h | ⟨h, _⟩)
          · exact Or.inr ⟨hy.symm, h.le⟩
          · exact Or.inr ⟨hy.symm, h.le⟩
        · rintro (h | ⟨_, h⟩)
          · exact absurd (hy ▸ h) (lt_irrefl _)
          · rcases lt_or_eq_of_le h with h1 | h1
            · exact Or.inl h1
            · exact Or.inr ⟨h1, hy.ge⟩
  · intro hx hy
    rw [vertex_le_h_iff, vertex_le_v_iff]
    constructor
    · rcases lt_or_eq_of_le hy with h | h
      · exact Or.inl h
      · exact Or.inr ⟨h, hx⟩
    · rcases lt_or_eq_of_le hx with h | h
      · exact Or.inl h
      · exact Or.inr ⟨h, hy⟩

/-- Witness of C14: a vertical edge pointing to larger y goes right and
down, and a vertex dominated in both coordinates precedes in both orders. -/
theorem axis_aligned_orders_agree_witness :
    ((gb_tessellator_edge_go_right ⟨mkVertex 0 (2 : ℤ) 1, mkVertex 1 2 6⟩ = true ↔
        gb_tessellator_edge_go_down ⟨mkVertex 0 (2 : ℤ) 1, mkVertex 1 2 6⟩ = true) ∧
      (gb_tessellator_edge_go_left ⟨mkVertex 0 (2 : ℤ) 1, mkVertex 1 2 6⟩ = true ↔
        gb_tessellator_edge_go_up ⟨mkVertex 0 (2 : ℤ) 1, mkVertex 1 2 6⟩ = true)) ∧
    (gb_tessellator_vertex_le_h (mkVertex 2 (1 : ℤ) 1) (mkVertex 3 4 1) = true ∧
      gb_tessellator_vertex_le_v (mkVertex 2 (1 : ℤ) 1) (mkVertex 3 4 1) = true) :=
  ⟨(axis_aligned_orders_agree ⟨mkVertex 0 (2 : ℤ) 1, mkVertex 1 2 6⟩
      (mkVertex 2 1 1) (mkVertex 3 4 1)).1 (Or.inl rfl),
    (axis_aligned_orders_agree ⟨mkVertex 0 (2 : ℤ) 1, mkVertex 1 2 6⟩
      (mkVertex 2 1 1) (mkVertex 3 4 1)).2 (by decide) (by decide)⟩

end EdgeClaims

section DemoClaims

/-- C15: for every combination of success or failure of `tb_init`, `gb_init`
and `gb_window_init_glut`, `main` returns 0; `gb_window_loop` followed by
`gb_window_exit` runs iff all three succeeded (and neither runs otherwise);
`gb_exit` followed by `tb_exit` runs iff `tb_init` and `gb_init` both
succeeded (and neither runs otherwise), so that when `gb_init` fails after
`tb_init` succeeded `tb_exit` is never called. -/
theorem main_calls (o : Outcome) :
    (main o).2 = 0 ∧
    ((∃ w, [Call.gb_window_loop w, Call.gb_window_exit w] <:+: (main o).1) ↔
      (o.tb_init = true ∧ o.gb_init = true ∧ o.gb_window_init_glut.isSome = true)) ∧
    ((∃ w, Call.gb_window_loop w ∈ (main o).1 ∨ Call.gb_window_exit w ∈ (main o).1) →
      (o.tb_init = true ∧ o.gb_init = true ∧ o.gb_window_init_glut.isSome = true)) ∧
    ([Call.gb_exit, Call.tb_exit] <:+: (main o).1 ↔
      (o.tb_init = true ∧ o.gb_init = true)) ∧
    ((Call.gb_exit ∈ (main o).1 ∨ Call.tb_exit ∈ (main o).1) →
      (o.tb_init = true ∧ o.gb_init = true)) ∧
    (o.tb_init = true → o.gb_init = false → Call.tb_exit ∉ (main o).1) := by
  obtain ⟨tb, gb, window⟩ := o
  have hinf : ∀ (a b : Call) (l : List Call), [a, b] <:+: l → a ∈ l := by
    intro a b l h
    exact h.subset (List.mem_cons_self a [b])
  cases tb <;> cases gb <;> cases window
  all_goals simp only [main]
  all_goals refine ⟨rfl, ⟨?_, ?_⟩, ?_, ⟨?_, ?_⟩, ?_, ?_⟩
  all_goals first
    | (simp
       done)
    | (rintro ⟨w, h⟩
       have hm := hinf _ _ _ h
       simp at hm)
    | (intro h
       have hm := hinf _ _ _ h
       simp at hm)
    | (intro _
       exact ⟨_, [Call.tb_init, Call.gb_init,
         Call.gb_window_init_glut GB_DEMO_WIDTH GB_DEMO_HEIGHT],
         [Call.gb_exit, Call.tb_exit], rfl⟩)
    | (intro _
       exact ⟨[Call.tb_init, Call.gb_init,
         Call.gb_window_init_glut GB_DEMO_WIDTH GB_DEMO_HEIGHT, Call.gb_window_loop _,
         Call.gb_window_exit _], [], rfl⟩)
    | (intro _
       exact ⟨[Call.tb_init, Call.gb_init,
         Call.gb_window_init_glut GB_DEMO_WIDTH GB_DEMO_HEIGHT], [], rfl⟩)

/-- Witness of C15: when `gb_init` fails after `tb_init` succeeded `tb_exit`
is not among the calls made, and when only the window fails to open `gb_exit`
followed by `tb_exit` still runs. -/
theorem main_calls_witness :
    ((Outcome.mk true false (some 1)).tb_init = true ∧
      (Outcome.mk true false (some 1)).gb_init = false ∧
      Call.tb_exit ∉ (main (Outcome.mk true false (some 1))).1) ∧
    [Call.gb_exit, Call.tb_exit] <:+: (main (Outcome.mk true true none)).1 :=
  ⟨⟨rfl, rfl, (main_calls (Outcome.mk true false (some 1))).2.2.2.2.2 rfl rfl⟩,
    (main_calls (Outcome.mk true true none)).2.2.2.1.mpr ⟨rfl, rfl⟩⟩

end DemoClaims

end GBox
